import Mathlib

/-!
Verification of the `createAction` factory from
`src/utils/meta/generate-meta.ts` (the Action Factory of the spec).

The TypeScript function is shallowly embedded: JavaScript runtime values
are the inductive `JValue`, the outbound request pipeline is the pure
function `runActionRaw` (everything inside the `try`), and the `catch`
block's error normalisation is `wrapCatch`.  External collaborators
(`fetch`, `revalidateTag`, `process.env.API_URL`) are an explicit
environment `Env` plus an event trace: `Event.fetchIssued` records the
single HTTP request, `Event.revalidate` records each `revalidateTag`
call, and the parse events record which response-decoding path ran.
-/

namespace ActionFactory

/-- JavaScript runtime values relevant to the pipeline: `undefined`,
`null`, booleans, numbers, strings, plain objects (own enumerable
string-keyed entries, in insertion order), arrays, and `FormData`
(modelled by its entry list; it has no own enumerable properties). -/
inductive JValue where
  | undef
  | null
  | bool (b : Bool)
  | num (n : Int)
  | str (s : String)
  | obj (fields : List (String × JValue))
  | arr (items : List JValue)
  | formData (entries : List (String × String))

/-- `v === undefined`. -/
def isUndef : JValue → Bool
  | .undef => true
  | _ => false

/-- `v === null`. -/
def isNull : JValue → Bool
  | .null => true
  | _ => false

/-- JavaScript truthiness, as used by `if (tags)` and
`requestData && ...` in the source. -/
def truthy : JValue → Bool
  | .undef => false
  | .null => false
  | .bool b => b
  | .num n => n != 0
  | .str s => s != ""
  | .obj _ => true
  | .arr _ => true
  | .formData _ => true

/-- `typeof v` evaluating to the string `object` for our value fragment
(`null` also reports `object` in JavaScript but is always filtered out
by truthiness first). -/
def typeofObject : JValue → Bool
  | .null => true
  | .obj _ => true
  | .arr _ => true
  | .formData _ => true
  | _ => false

/-- `requestData instanceof FormData`. -/
def isFormDataVal : JValue → Bool
  | .formData _ => true
  | _ => false

/-- The entry list of a `FormData` value (empty on other values; only
read behind an `isFormDataVal` test). -/
def formDataEntries : JValue → List (String × String)
  | .formData entries => entries
  | _ => []

/-- `Object.entries(v)`: own enumerable entries of an object, indexed
entries of an array, nothing for `FormData` (header entries are not
properties).  Only reached when `typeof v` is `object` in the source. -/
def jsEntries : JValue → List (String × JValue)
  | .obj fields => fields
  | .arr items => (items.enum).map (fun p => (toString p.1, p.2))
  | _ => []

mutual

/-- JavaScript `String(v)` conversion for the embedded value fragment. -/
def jsToString : JValue → String
  | .undef => "undefined"
  | .null => "null"
  | .bool b => if b then "true" else "false"
  | .num n => toString n
  | .str s => s
  | .obj _ => "[object Object]"
  | .arr items => jsArrToString items
  | .formData _ => "[object FormData]"

/-- `Array.prototype.toString`: elements joined with commas, with
`undefined`/`null` elements rendered as the empty string. -/
def jsArrToString : List JValue → String
  | [] => ""
  | x :: xs =>
    let hd :=
      match x with
      | .undef => ""
      | .null => ""
      | v => jsToString v
    match xs with
    | [] => hd
    | _ => hd ++ "," ++ jsArrToString xs

end

/-- Escape one character for a JSON string literal. -/
def jsonQuoteChar (c : Char) : String :=
  if c = '"' then "\\\""
  else if c = '\\' then "\\\\"
  else if c = '\n' then "\\n"
  else if c = '\t' then "\\t"
  else if c = '\r' then "\\r"
  else String.singleton c

/-- A JSON string literal for `s`. -/
def jsonQuote (s : String) : String :=
  "\"" ++ String.join (s.toList.map jsonQuoteChar) ++ "\""

mutual

/-- `JSON.stringify(v)`: `none` models the JavaScript result `undefined`
(only produced at top level for `undefined` in our fragment).  Object
fields whose value stringifies to `undefined` are omitted; array
elements that do so render as `null`. -/
def jsonStringify : JValue → Option String
  | .undef => none
  | .null => some "null"
  | .bool b => some (if b then "true" else "false")
  | .num n => some (toString n)
  | .str s => some (jsonQuote s)
  | .arr items => some ("[" ++ String.intercalate "," (jsonStringifyArr items) ++ "]")
  | .obj fields => some ("\x7b" ++ String.intercalate "," (jsonStringifyFields fields) ++ "\x7d")
  | .formData _ => some "\x7b\x7d"

def jsonStringifyArr : List JValue → List String
  | [] => []
  | x :: xs => ((jsonStringify x).getD "null") :: jsonStringifyArr xs

def jsonStringifyFields : List (String × JValue) → List String
  | [] => []
  | (k, v) :: fs =>
    match jsonStringify v with
    | some s => (jsonQuote k ++ ":" ++ s) :: jsonStringifyFields fs
    | none => jsonStringifyFields fs

end

/-! ### String helpers (kernel-reducible stand-ins for library routines) -/

/-- Split a character list at every occurrence of `c` (like
`String.prototype.split` on a single-character separator). -/
def splitChar (c : Char) : List Char → List (List Char)
  | [] => [[]]
  | x :: xs =>
    match splitChar c xs with
    | [] => if x = c then [[], []] else [[x]]
    | g :: gs => if x = c then [] :: g :: gs else (x :: g) :: gs

/-- Join character-list groups with the separator `c`. -/
def joinWith (c : Char) : List (List Char) → List Char
  | [] => []
  | [g] => g
  | g :: gs => g ++ c :: joinWith c gs

/-- `pat` occurs at the head of `hay`. -/
def leadsWith : List Char → List Char → Bool
  | [], _ => true
  | _ :: _, [] => false
  | p :: ps, c :: cs => p = c && leadsWith ps cs

/-- `pat` occurs somewhere in `hay`. -/
def containsSub (hay pat : List Char) : Bool :=
  match hay with
  | [] => pat.isEmpty
  | _ :: rest => leadsWith pat hay || containsSub rest pat

/-- `String.prototype.includes`. -/
def strIncludes (s pat : String) : Bool :=
  containsSub s.toList pat.toList

/-- ASCII-lowercase a string (enough for HTTP header names). -/
def lowerStr (s : String) : String :=
  ⟨s.toList.map Char.toLower⟩

/-! ### URLs

`new URL(str)` succeeds only for absolute URLs, i.e. strings starting
with a `scheme:` prefix; otherwise it throws `TypeError: Invalid URL`.
A parsed URL is kept as everything before the first `?` plus its query
entries, to which `url.searchParams.append` adds at the end. -/

/-- Characters allowed in a URL scheme after the leading letter. -/
def schemeChar (c : Char) : Bool :=
  c.isAlphanum || c = '+' || c = '-' || c = '.'

/-- After a leading letter, scan for the `:` ending a scheme. -/
def schemeTail : List Char → Bool
  | [] => false
  | c :: cs => if c = ':' then true else schemeChar c && schemeTail cs

/-- The string starts with a URL scheme (`letter (letter|digit|+|-|.)* :`),
the validity test of the embedded `new URL`. -/
def hasScheme (s : String) : Bool :=
  match s.toList with
  | [] => false
  | c :: cs => c.isAlpha && schemeTail cs

/-- A parsed URL object: the part before the query, and the query as an
ordered list of key/value entries (`url.searchParams`). -/
structure UrlObj where
  base : String
  query : List (String × String)
deriving DecidableEq

/-- Parse a query string into `searchParams` entries. -/
def parseQuery (q : List Char) : List (String × String) :=
  (splitChar '&' q).filterMap fun part =>
    if part.isEmpty then none
    else
      match splitChar '=' part with
      | [] => none
      | k :: vs => some (⟨k⟩, ⟨joinWith '=' vs⟩)

/-- `new URL(s)`: `none` models the thrown `TypeError: Invalid URL`. -/
def mkUrl (s : String) : Option UrlObj :=
  if hasScheme s then
    match splitChar '?' s.toList with
    | [] => some ⟨s, []⟩
    | p :: rest =>
      if rest.isEmpty then some ⟨⟨p⟩, []⟩
      else some ⟨⟨p⟩, parseQuery (joinWith '?' rest)⟩
  else none

/-- `${v}` for `process.env.API_URL`: an unset variable interpolates as
the string `"undefined"`. -/
def envBaseString : Option String → String
  | none => "undefined"
  | some s => s

/-! ### Headers -/

/-- The shapes a TypeScript `HeadersInit` can take: a plain object, a
`Headers` instance, or an array of name/value pairs.  The source's
`in`-test for the key `Content-Type` only ever succeeds on the plain-object
shape, because header entries of a `Headers` instance and index entries
of an array are not properties named `Content-Type`. -/
inductive HeadersVal where
  | obj (entries : List (String × String))
  | headersObj (entries : List (String × String))
  | pairs (entries : List (String × String))
deriving DecidableEq

/-- The `in`-test for `Content-Type` on a plain object: an own property with
exactly this case-sensitive name. -/
def headersHasKey (entries : List (String × String)) (k : String) : Bool :=
  entries.any fun kv => kv.1 = k

/-- The `delete` of the `Content-Type` key of a plain object. -/
def deleteKey (entries : List (String × String)) (k : String) :
    List (String × String) :=
  entries.filter fun kv => kv.1 != k

/-- The FormData branch of the source:
when `headers` is truthy, of type `object` and has the key
`Content-Type`, spread it into a fresh `newHeaders` object, `delete`
the `Content-Type` key there and install `newHeaders` into the fetch
options.  The spread builds a fresh copy and
the delete acts on that copy, so the caller-supplied mapping is left as
it was.  The result pair is (caller's headers value after the branch,
headers installed into the fetch options). -/
def applyFormDataHeaderFix : HeadersVal → HeadersVal × HeadersVal
  | .obj entries =>
    if headersHasKey entries "Content-Type" then
      (.obj entries, .obj (deleteKey entries "Content-Type"))
    else (.obj entries, .obj entries)
  | h => (h, h)

/-! ### Errors

Each `throw` site of the source produces a JavaScript `Error` instance;
`JsErr` classifies them by site and carries the data the message is
built from.  `configurationError` is not produced by any code path: it
models the `ConfigurationError` kind that §7 of the spec prescribes, so
that spec and source can be compared. -/

inductive JsErr where
  /-- `new Error("HTTP error! status: " + status)` thrown on `!response.ok`. -/
  | httpError (status : Nat)
  /-- The `TypeError: Invalid URL` thrown by `new URL`. -/
  | invalidUrl
  /-- Rejection of `response.json()` (a `SyntaxError`). -/
  | parseError (msg : String)
  /-- Rejection of `fetch` itself (a `TypeError`), before any response. -/
  | networkError (msg : String)
  /-- A plain `Error` with the given message. -/
  | plain (msg : String)
  /-- The spec's `ConfigurationError` kind (§7); no code path produces it. -/
  | configurationError
deriving DecidableEq

/-- The human-readable message of each error. -/
def JsErr.message : JsErr → String
  | .httpError status => "HTTP error! status: " ++ toString status
  | .invalidUrl => "Invalid URL"
  | .parseError msg => msg
  | .networkError msg => msg
  | .plain msg => msg
  | .configurationError => "ConfigurationError"

/-- A thrown JavaScript value: either an `Error` instance or a raw
non-`Error` value (JavaScript can `throw` anything). -/
inductive Thrown where
  | err (e : JsErr)
  | raw (v : JValue)

/-- The catch block's normalisation:
`error instanceof Error ? error : new Error(String(error))`. -/
def normalizeThrown : Thrown → JsErr
  | .err e => e
  | .raw v => .plain (jsToString v)

/-! ### Descriptor, environment, request, response -/

/-- The HTTP methods of the `HttpMethod` union type. -/
inductive HttpMethod where
  | GET
  | POST
  | PUT
  | DELETE
  | PATCH
deriving DecidableEq

/-- `string | string[]` for the `tags` field. -/
inductive TagsVal where
  | one (t : String)
  | many (ts : List String)
deriving DecidableEq

/-- Truthiness of the `tags` value in `if (tags)`: a single empty-string
tag is falsy, every array (even empty) is truthy. -/
def tagsTruthy : TagsVal → Bool
  | .one t => t != ""
  | .many _ => true

/-- `Array.isArray(tags) ? tags : [tags]`. -/
def normTags : TagsVal → List String
  | .one t => [t]
  | .many ts => ts

/-- The transport's response at the boundary of §6: numeric status, the
response headers, and the outcomes of decoding the body as JSON
(`response.json()`, which may reject) or as text (`response.text()`). -/
structure HttpResponse where
  status : Nat
  headers : List (String × String)
  jsonResult : Except String JValue
  textBody : String

/-- `response.ok`: status in the 200–299 range. -/
def respOk (resp : HttpResponse) : Bool :=
  200 ≤ resp.status && resp.status ≤ 299

/-- `response.headers.get(name)`: case-insensitive lookup; multiple
matching entries are combined with a comma as the Fetch spec does. -/
def headerGetCI (hs : List (String × String)) (name : String) : Option String :=
  match hs.filter (fun kv => lowerStr kv.1 = lowerStr name) with
  | [] => none
  | ms => some (String.intercalate ", " (ms.map (fun kv => kv.2)))

/-- The optional-chained `includes` test for `application/json` on the response's
`Content-Type` header (absent header → falsy → text branch). -/
def includesJson (resp : HttpResponse) : Bool :=
  match headerGetCI resp.headers "Content-Type" with
  | some ct => strIncludes ct "application/json"
  | none => false

/-- The `ActionConfig` descriptor, with the source's defaults for
`method` and `headers`.  The transform functions return `Except Thrown`
because JavaScript functions may throw. -/
structure ActionConfig where
  input : String
  method : HttpMethod := .POST
  headers : HeadersVal := .obj [("Content-Type", "application/json")]
  tags : Option TagsVal := none
  transformRequest : Option (JValue → Except Thrown JValue) := none
  transformResponse : Option (HttpResponse → Except Thrown JValue) := none

/-- The request body handed to `fetch`: absent, a JSON text from
`JSON.stringify`, or a `FormData` value passed through verbatim. -/
inductive FetchBody where
  | none
  | jsonString (s : String)
  | form (entries : List (String × String))
deriving DecidableEq

/-- The outbound request assembled into `fetch(url, fetchOptions)`. -/
structure FetchRequest where
  url : UrlObj
  method : HttpMethod
  headers : HeadersVal
  body : FetchBody
deriving DecidableEq

/-- What the transport did: a response, or a rejection of `fetch`. -/
inductive FetchOutcome where
  | success (resp : HttpResponse)
  | networkError (msg : String)

/-- The collaborators the action reads: `process.env.API_URL` and the
`fetch` transport. -/
structure Env where
  apiUrl : Option String
  fetch : FetchRequest → FetchOutcome

/-- Observable effects of one invocation, in chronological order. -/
inductive Event where
  | fetchIssued (req : FetchRequest)
  | respTransformCalled
  | jsonParsed
  | textRead
  | revalidate (tag : String)
deriving DecidableEq

/-! ### The pipeline -/

/-- Step 1 of the returned action:
`transform?.request && data !== undefined ? transform.request(data) : data`. -/
def computeRequestData (cfg : ActionConfig) (data : JValue) :
    Except Thrown JValue :=
  match cfg.transformRequest with
  | some f => if isUndef data then .ok data else f data
  | none => .ok data

/-- The GET-branch query entries:
`Object.entries(requestData)` appended when
`value !== undefined && value !== null`, each via `String(value)`,
in iteration order. -/
def getQueryParams (entries : List (String × JValue)) :
    List (String × String) :=
  entries.filterMap fun kv =>
    if isUndef kv.2 || isNull kv.2 then none
    else some (kv.1, jsToString kv.2)

/-- Steps 1–3: apply the request transform, build the URL from
`process.env.API_URL` and `input`, encode the payload into query
parameters (GET) or a body (other methods), and fix up headers for
`FormData`.  Errors are the transform's thrown value or the URL
constructor's `TypeError`. -/
def buildRequest (cfg : ActionConfig) (env : Env) (data : JValue) :
    Except Thrown FetchRequest :=
  match computeRequestData cfg data with
  | .error t => .error t
  | .ok rd =>
    match mkUrl (envBaseString env.apiUrl ++ cfg.input) with
    | none => .error (.err .invalidUrl)
    | some u =>
      let u :=
        if cfg.method = .GET ∧ truthy rd ∧ typeofObject rd then
          { u with query := u.query ++ getQueryParams (jsEntries rd) }
        else u
      if cfg.method ≠ .GET ∧ ¬ isUndef rd then
        if isFormDataVal rd then
          .ok { url := u, method := cfg.method,
                headers := (applyFormDataHeaderFix cfg.headers).2,
                body := .form (formDataEntries rd) }
        else
          .ok { url := u, method := cfg.method, headers := cfg.headers,
                body :=
                  match jsonStringify rd with
                  | some s => .jsonString s
                  | none => .none }
      else
        .ok { url := u, method := cfg.method, headers := cfg.headers,
              body := .none }

/-- Step 6: custom response transform if configured, otherwise the
content-type–driven two-way branch between `response.json()` and
`response.text()`.  Also reports which decoding path ran. -/
def parseResponse (cfg : ActionConfig) (resp : HttpResponse) :
    Except Thrown JValue × List Event :=
  match cfg.transformResponse with
  | some f => (f resp, [.respTransformCalled])
  | none =>
    if includesJson resp then
      match resp.jsonResult with
      | .ok v => (.ok v, [.jsonParsed])
      | .error msg => (.error (.err (.parseError msg)), [.jsonParsed])
    else (.ok (.str resp.textBody), [.textRead])

/-- Step 7: the tags passed to `revalidateTag`, or none when `if (tags)`
is falsy. -/
def effectiveTags (cfg : ActionConfig) : List String :=
  match cfg.tags with
  | none => []
  | some tv => if tagsTruthy tv then normTags tv else []

/-- The whole `try` block of the action returned by `createAction`:
build the request, fetch, validate the status, parse/transform, then
revalidate tags.  Returns the result together with the chronological
effect trace. -/
def runActionRaw (cfg : ActionConfig) (env : Env) (data : JValue) :
    Except Thrown JValue × List Event :=
  match buildRequest cfg env data with
  | .error t => (.error t, [])
  | .ok req =>
    match env.fetch req with
    | .networkError msg =>
      (.error (.err (.networkError msg)), [.fetchIssued req])
    | .success resp =>
      if respOk resp then
        match parseResponse cfg resp with
        | (.ok v, pevs) =>
          (.ok v,
            .fetchIssued req :: (pevs ++ (effectiveTags cfg).map .revalidate))
        | (.error t, pevs) => (.error t, .fetchIssued req :: pevs)
      else
        (.error (.err (.httpError resp.status)), [.fetchIssued req])

/-- The catch block: whatever escapes the pipeline is re-thrown as an
`Error` instance, raw thrown values being wrapped via `String(error)`. -/
def wrapCatch : Except Thrown JValue → Except Thrown JValue
  | .ok v => .ok v
  | .error t => .error (.err (normalizeThrown t))

/-- One invocation of the action function: the `try` pipeline under the
normalising `catch`. -/
def runAction (cfg : ActionConfig) (env : Env) (data : JValue) :
    Except Thrown JValue × List Event :=
  let r := runActionRaw cfg env data
  (wrapCatch r.1, r.2)

/-- The tags signalled in a trace, in order. -/
def revalidatedTags (evs : List Event) : List String :=
  evs.filterMap fun e =>
    match e with
    | .revalidate t => some t
    | _ => none

/-! ### Shared concrete fixtures for witnesses and counterexamples -/

/-- A 200 response declaring a JSON body. -/
def okResp : HttpResponse :=
  { status := 200, headers := [("Content-Type", "application/json")],
    jsonResult := .ok (.obj [("id", .num 1)]), textBody := "" }

/-- An environment with a configured base URL whose transport always
answers with `okResp`. -/
def okEnv : Env :=
  { apiUrl := some "http://api.test", fetch := fun _ => .success okResp }

/-- A 404 response. -/
def notFoundResp : HttpResponse :=
  { status := 404, headers := [], jsonResult := .error "no body",
    textBody := "gone" }

/-- An environment whose transport always answers 404. -/
def notFoundEnv : Env :=
  { apiUrl := some "http://api.test", fetch := fun _ => .success notFoundResp }

/-! ### Helper lemmas -/

/-- `parseResponse` records exactly one decoding event: the custom
transform, a JSON parse, or a text read. -/
theorem parseResponse_events (cfg : ActionConfig) (resp : HttpResponse) :
    (parseResponse cfg resp).2 = [Event.respTransformCalled]
    ∨ (parseResponse cfg resp).2 = [Event.jsonParsed]
    ∨ (parseResponse cfg resp).2 = [Event.textRead] := by
  rcases htr : cfg.transformResponse with _ | f
  · by_cases hj : includesJson resp
    · rcases hr : resp.jsonResult with m | v <;> simp [parseResponse, htr, hj, hr]
    · simp [parseResponse, htr, hj]
  · simp [parseResponse, htr]

/-- `revalidatedTags` distributes over append. -/
theorem revalidatedTags_append (a b : List Event) :
    revalidatedTags (a ++ b) = revalidatedTags a ++ revalidatedTags b := by
  simp [revalidatedTags]

/-- A block of revalidation events signals exactly its tag list. -/
theorem revalidatedTags_map (ts : List String) :
    revalidatedTags (ts.map .revalidate) = ts := by
  induction ts with
  | nil => rfl
  | cons t ts ih => simp [revalidatedTags] at ih ⊢; exact ih

/-- No decoding event is a revalidation signal. -/
theorem revalidatedTags_parse (cfg : ActionConfig) (resp : HttpResponse) :
    revalidatedTags (parseResponse cfg resp).2 = [] := by
  rcases parseResponse_events cfg resp with h | h | h <;>
    simp [h, revalidatedTags]

/-- Only `undefined` fails to `JSON.stringify` in the embedded fragment. -/
theorem jsonStringify_eq_none (v : JValue) :
    jsonStringify v = none ↔ v = .undef := by
  cases v <;> simp [jsonStringify]

/-! ### Claim theorems -/

/-- C1: for every descriptor and every invocation whose HTTP response
has a status outside 200–299, the action rejects with the HTTP error
carrying the numeric status code of the response, and neither the
response transform, nor response-body parsing, nor any cache-tag
invalidation occurs on that invocation. -/
theorem http_error_rejects_without_parse_or_invalidate
    (cfg : ActionConfig) (env : Env) (data : JValue)
    (req : FetchRequest) (resp : HttpResponse)
    (hreq : buildRequest cfg env data = .ok req)
    (hfetch : env.fetch req = .success resp)
    (hstatus : respOk resp = false) :
    runAction cfg env data
      = (.error (.err (.httpError resp.status)), [.fetchIssued req])
    ∧ revalidatedTags (runAction cfg env data).2 = []
    ∧ Event.respTransformCalled ∉ (runAction cfg env data).2
    ∧ Event.jsonParsed ∉ (runAction cfg env data).2
    ∧ Event.textRead ∉ (runAction cfg env data).2 := by
  have h : runAction cfg env data
      = (.error (.err (.httpError resp.status)), [.fetchIssued req]) := by
    simp [runAction, runActionRaw, hreq, hfetch, hstatus, wrapCatch,
      normalizeThrown]
  refine ⟨h, ?_, ?_, ?_, ?_⟩ <;> simp [h, revalidatedTags]

/-- C1 witness: a concrete 404 round trip. -/
theorem http_error_rejects_without_parse_or_invalidate_witness :
    respOk notFoundResp = false
    ∧ runAction { input := "/users" } notFoundEnv .undef
        = (.error (.err (.httpError 404)),
           [.fetchIssued
              { url := ⟨"http://api.test/users", []⟩, method := .POST,
                headers := .obj [("Content-Type", "application/json")],
                body := .none }]) :=
  ⟨rfl,
    (http_error_rejects_without_parse_or_invalidate
      { input := "/users" } notFoundEnv .undef
      { url := ⟨"http://api.test/users", []⟩, method := .POST,
        headers := .obj [("Content-Type", "application/json")],
        body := .none }
      notFoundResp rfl rfl rfl).1⟩

/-- A descriptor declaring a single empty-string tag. -/
def emptyTagCfg : ActionConfig :=
  { input := "/x", tags := some (.one "") }

/-- C3 counterexample: a descriptor whose tags value is the single tag
`""` (which normalises to the one-element list containing the empty
string).  A concrete invocation completes successfully, yet the
declared tag is never signalled for invalidation: the empty string is
falsy, so the `if (tags)` guard skips the revalidation loop entirely.
This refutes the claim that on every successful invocation each
declared tag is signalled exactly once. -/
theorem single_empty_tag_never_signaled_cex :
    emptyTagCfg.tags = some (.one "")
    ∧ normTags (.one "") = [""]
    ∧ (runAction emptyTagCfg okEnv .undef).1 = .ok (.obj [("id", .num 1)])
    ∧ revalidatedTags (runAction emptyTagCfg okEnv .undef).2 = [] :=
  ⟨rfl, rfl, rfl, rfl⟩

/-- C3 amended: on every successful invocation of a descriptor whose
tags value is truthy (i.e. not the single empty-string tag), each
declared tag is signalled exactly once (the trace carries one
`revalidate` event per entry of the normalised tag list, a single tag
normalising to a one-element list), the signals appear in declaration
order, and they all come after the single response decode event. -/
theorem success_invalidates_each_tag_in_order_after_parse
    (cfg : ActionConfig) (env : Env) (data : JValue)
    (req : FetchRequest) (resp : HttpResponse) (v : JValue)
    (pevs : List Event) (tv : TagsVal)
    (hreq : buildRequest cfg env data = .ok req)
    (hfetch : env.fetch req = .success resp)
    (hstatus : respOk resp = true)
    (hparse : parseResponse cfg resp = (.ok v, pevs))
    (htags : cfg.tags = some tv)
    (htruthy : tagsTruthy tv = true) :
    runAction cfg env data
      = (.ok v, .fetchIssued req :: (pevs ++ (normTags tv).map .revalidate))
    ∧ revalidatedTags (runAction cfg env data).2 = normTags tv
    ∧ (pevs = [Event.respTransformCalled] ∨ pevs = [Event.jsonParsed]
        ∨ pevs = [Event.textRead]) := by
  have htl : effectiveTags cfg = normTags tv := by
    simp [effectiveTags, htags, htruthy]
  have h : runAction cfg env data
      = (.ok v, .fetchIssued req :: (pevs ++ (normTags tv).map .revalidate)) := by
    simp [runAction, runActionRaw, hreq, hfetch, hstatus, hparse, htl,
      wrapCatch]
  have hp : revalidatedTags pevs = [] := by
    have := revalidatedTags_parse cfg resp
    rw [hparse] at this
    exact this
  refine ⟨h, ?_, ?_⟩
  · rw [h]
    show revalidatedTags
        (.fetchIssued req :: (pevs ++ (normTags tv).map .revalidate))
        = normTags tv
    rw [show revalidatedTags
          (.fetchIssued req :: (pevs ++ (normTags tv).map .revalidate))
          = revalidatedTags (pevs ++ (normTags tv).map .revalidate) from rfl,
      revalidatedTags_append, hp, revalidatedTags_map, List.nil_append]
  · have := parseResponse_events cfg resp
    rw [hparse] at this
    exact this

/-- C3 witness: two tags on a concrete successful POST invocation. -/
theorem success_invalidates_each_tag_in_order_after_parse_witness :
    runAction { input := "/x", tags := some (.many ["a", "b"]) } okEnv
        (.obj [("n", .num 1)])
      = (.ok (.obj [("id", .num 1)]),
         [.fetchIssued
            { url := ⟨"http://api.test/x", []⟩, method := .POST,
              headers := .obj [("Content-Type", "application/json")],
              body := .jsonString "\x7b\"n\":1\x7d" },
          .jsonParsed, .revalidate "a", .revalidate "b"]) :=
  (success_invalidates_each_tag_in_order_after_parse
    { input := "/x", tags := some (.many ["a", "b"]) } okEnv
    (.obj [("n", .num 1)])
    { url := ⟨"http://api.test/x", []⟩, method := .POST,
      headers := .obj [("Content-Type", "application/json")],
      body := .jsonString "\x7b\"n\":1\x7d" }
    okResp (.obj [("id", .num 1)]) [.jsonParsed] (.many ["a", "b"])
    rfl rfl rfl rfl rfl rfl).1

/-- A descriptor whose response transform always throws, while the
transport answers 200: the round trip itself is successful. -/
def failingTransformCfg : ActionConfig :=
  { input := "/x", tags := some (.many ["users"]),
    transformResponse := some fun _ => .error (.err (.plain "transform failed")) }

/-- C2 counterexample: the HTTP round trip completes with an ok (200)
status and the descriptor declares a truthy tag list, yet no
invalidation is signalled, because the response transform throws after
the status check.  This refutes the claimed "if and only if the round
trip completed with a successful status". -/
theorem invalidation_missing_despite_ok_status_cex :
    respOk okResp = true
    ∧ failingTransformCfg.tags = some (.many ["users"])
    ∧ tagsTruthy (.many ["users"]) = true
    ∧ (runAction failingTransformCfg okEnv .undef).1
        = .error (.err (.plain "transform failed"))
    ∧ revalidatedTags (runAction failingTransformCfg okEnv .undef).2 = [] :=
  ⟨rfl, rfl, rfl, rfl, rfl⟩

/-- C2 amended: for descriptors whose tags value is truthy and
normalises to a nonempty list, invalidation is signalled in an
invocation if and only if the whole invocation succeeds — ok HTTP
status and a successful response parse/transform; in particular
invalidation never occurs when the invocation fails. -/
theorem invalidation_iff_invocation_succeeds
    (cfg : ActionConfig) (env : Env) (data : JValue) (tv : TagsVal)
    (htags : cfg.tags = some tv)
    (htruthy : tagsTruthy tv = true)
    (hne : normTags tv ≠ []) :
    revalidatedTags (runAction cfg env data).2 ≠ []
      ↔ ∃ v, (runAction cfg env data).1 = .ok v := by
  have htl : effectiveTags cfg = normTags tv := by
    simp [effectiveTags, htags, htruthy]
  rcases hb : buildRequest cfg env data with t | req
  · have h : runAction cfg env data = (.error (.err (normalizeThrown t)), []) := by
      simp [runAction, runActionRaw, hb, wrapCatch]
    rw [h]
    simp [revalidatedTags]
  · rcases hf : env.fetch req with resp | msg
    · by_cases hok : respOk resp
      · rcases hp : parseResponse cfg resp with ⟨r, pevs⟩
        have hpe : revalidatedTags pevs = [] := by
          have := revalidatedTags_parse cfg resp
          rw [hp] at this
          exact this
        rcases r with t | v
        · have h : runAction cfg env data
              = (.error (.err (normalizeThrown t)), .fetchIssued req :: pevs) := by
            simp [runAction, runActionRaw, hb, hf, hok, hp, wrapCatch]
          rw [h]
          have h2 : revalidatedTags (Event.fetchIssued req :: pevs)
              = revalidatedTags pevs := rfl
          simp [h2, hpe]
        · have h : runAction cfg env data
              = (.ok v, .fetchIssued req ::
                  (pevs ++ (normTags tv).map .revalidate)) := by
            simp [runAction, runActionRaw, hb, hf, hok, hp, htl, wrapCatch]
          rw [h]
          have h2 : revalidatedTags
              (Event.fetchIssued req :: (pevs ++ (normTags tv).map .revalidate))
              = normTags tv := by
            rw [show revalidatedTags
                  (Event.fetchIssued req ::
                    (pevs ++ (normTags tv).map .revalidate))
                  = revalidatedTags (pevs ++ (normTags tv).map .revalidate)
                from rfl,
              revalidatedTags_append, hpe, revalidatedTags_map,
              List.nil_append]
          simp [h2, hne]
      · have h : runAction cfg env data
            = (.error (.err (.httpError resp.status)), [.fetchIssued req]) := by
          simp [runAction, runActionRaw, hb, hf, hok, wrapCatch,
            normalizeThrown]
        rw [h]
        simp [revalidatedTags]
    · have h : runAction cfg env data
          = (.error (.err (.networkError msg)), [.fetchIssued req]) := by
        simp [runAction, runActionRaw, hb, hf, wrapCatch, normalizeThrown]
      rw [h]
      simp [revalidatedTags]

/-- C2 amended witness: a concrete successful invocation with one tag,
where invalidation is signalled. -/
theorem invalidation_iff_invocation_succeeds_witness :
    tagsTruthy (.many ["users"]) = true
    ∧ normTags (.many ["users"]) ≠ []
    ∧ (revalidatedTags
        (runAction { input := "/x", tags := some (.many ["users"]) } okEnv
          .undef).2 ≠ []
      ↔ ∃ v, (runAction { input := "/x", tags := some (.many ["users"]) } okEnv
          .undef).1 = .ok v) :=
  ⟨rfl, by decide,
    invalidation_iff_invocation_succeeds
      { input := "/x", tags := some (.many ["users"]) } okEnv .undef
      (.many ["users"]) rfl rfl (by decide)⟩

/-- C4: for a GET descriptor whose (possibly transformed) payload is a
key-value object, the final URL's query is the URL's own query followed
by one entry per object field whose value is neither `undefined` nor
`null`, with the value converted via `String(value)`, in the object's
iteration order; `undefined`/`null`-valued entries are omitted. -/
theorem get_object_payload_query_params
    (cfg : ActionConfig) (env : Env) (data : JValue)
    (fields : List (String × JValue)) (u0 : UrlObj) (req : FetchRequest)
    (hm : cfg.method = .GET)
    (hrd : computeRequestData cfg data = .ok (.obj fields))
    (hu : mkUrl (envBaseString env.apiUrl ++ cfg.input) = some u0)
    (hreq : buildRequest cfg env data = .ok req) :
    req.url = ⟨u0.base, u0.query ++ getQueryParams fields⟩
    ∧ getQueryParams fields
        = fields.filterMap (fun kv =>
            if isUndef kv.2 || isNull kv.2 then none
            else some (kv.1, jsToString kv.2)) := by
  refine ⟨?_, rfl⟩
  unfold buildRequest at hreq
  rw [hrd, hu] at hreq
  simp [hm, truthy, typeofObject, jsEntries] at hreq
  rw [← hreq]

/-- C4 witness: a GET payload with a string, a number, a `null` and an
`undefined` entry. -/
theorem get_object_payload_query_params_witness :
    buildRequest { input := "/users", method := .GET } okEnv
        (.obj [("page", .num 2), ("q", .str "a b"), ("gone", .null),
               ("skip", .undef)])
      = .ok { url := ⟨"http://api.test/users",
                      [("page", "2"), ("q", "a b")]⟩,
              method := .GET,
              headers := .obj [("Content-Type", "application/json")],
              body := .none }
    ∧ ({ url := ⟨"http://api.test/users", [("page", "2"), ("q", "a b")]⟩,
         method := .GET,
         headers := .obj [("Content-Type", "application/json")],
         body := .none } : FetchRequest).url
      = ⟨"http://api.test/users",
         [] ++ getQueryParams
           [("page", .num 2), ("q", .str "a b"), ("gone", .null),
            ("skip", .undef)]⟩ :=
  ⟨rfl,
    (get_object_payload_query_params
      { input := "/users", method := .GET } okEnv
      (.obj [("page", .num 2), ("q", .str "a b"), ("gone", .null),
             ("skip", .undef)])
      [("page", .num 2), ("q", .str "a b"), ("gone", .null),
       ("skip", .undef)]
      ⟨"http://api.test/users", []⟩
      { url := ⟨"http://api.test/users", [("page", "2"), ("q", "a b")]⟩,
        method := .GET,
        headers := .obj [("Content-Type", "application/json")],
        body := .none }
      rfl rfl rfl rfl).1⟩

/-- C5: for a non-GET invocation whose (possibly transformed) payload is
defined and is not `FormData`, the outgoing body is exactly the JSON
serialisation of that payload and the headers are sent exactly as
configured; and whenever the payload is `undefined`, no body is attached
regardless of method. -/
theorem non_get_json_body_and_headers_as_configured
    (cfg : ActionConfig) (env : Env) (data : JValue)
    (rd : JValue) (req : FetchRequest)
    (hrd : computeRequestData cfg data = .ok rd)
    (hreq : buildRequest cfg env data = .ok req) :
    (∀ s, cfg.method ≠ .GET → isFormDataVal rd = false →
        jsonStringify rd = some s →
        req.body = .jsonString s ∧ req.headers = cfg.headers)
    ∧ (isUndef rd = true → req.body = .none) := by
  unfold buildRequest at hreq
  rw [hrd] at hreq
  rcases hu : mkUrl (envBaseString env.apiUrl ++ cfg.input) with _ | u
  all_goals rw [hu] at hreq
  · exact absurd hreq (by simp)
  constructor
  · intro s hm hfd hjs
    have hrdu : isUndef rd = false := by
      cases rd <;> first
        | rfl
        | simp [jsonStringify] at hjs
    simp [hm, hrdu, hfd] at hreq
    rw [hjs] at hreq
    rw [← hreq]
    exact ⟨rfl, rfl⟩
  · intro hrdu
    have : rd = .undef := by
      cases rd <;> simp [isUndef] at hrdu
      rfl
    subst this
    simp [isUndef, truthy] at hreq
    rw [← hreq]

/-- C5 witness: a POST with an object payload, and a DELETE with an
`undefined` payload. -/
theorem non_get_json_body_and_headers_as_configured_witness :
    (buildRequest { input := "/x" } okEnv (.obj [("n", .num 1)])
      = .ok { url := ⟨"http://api.test/x", []⟩, method := .POST,
              headers := .obj [("Content-Type", "application/json")],
              body := .jsonString "\x7b\"n\":1\x7d" })
    ∧ ({ url := ⟨"http://api.test/x", []⟩, method := .POST,
         headers := .obj [("Content-Type", "application/json")],
         body := .jsonString "\x7b\"n\":1\x7d" } : FetchRequest).body
        = .jsonString "\x7b\"n\":1\x7d"
    ∧ ({ url := ⟨"http://api.test/x", []⟩, method := .POST,
         headers := .obj [("Content-Type", "application/json")],
         body := .jsonString "\x7b\"n\":1\x7d" } : FetchRequest).headers
        = ActionConfig.headers { input := "/x" } :=
  ⟨rfl,
    ((non_get_json_body_and_headers_as_configured
        { input := "/x" } okEnv (.obj [("n", .num 1)])
        (.obj [("n", .num 1)])
        { url := ⟨"http://api.test/x", []⟩, method := .POST,
          headers := .obj [("Content-Type", "application/json")],
          body := .jsonString "\x7b\"n\":1\x7d" }
        rfl rfl).1 "\x7b\"n\":1\x7d" (by decide) rfl rfl).1,
    ((non_get_json_body_and_headers_as_configured
        { input := "/x" } okEnv (.obj [("n", .num 1)])
        (.obj [("n", .num 1)])
        { url := ⟨"http://api.test/x", []⟩, method := .POST,
          headers := .obj [("Content-Type", "application/json")],
          body := .jsonString "\x7b\"n\":1\x7d" }
        rfl rfl).1 "\x7b\"n\":1\x7d" (by decide) rfl rfl).2⟩

/-- A descriptor whose configured headers use the lowercase key
`content-type`. -/
def lowercaseHeaderCfg : ActionConfig :=
  { input := "/upload", method := .POST,
    headers := .obj [("content-type", "application/json")] }

/-- C6 counterexample: with a `FormData` payload and headers configured
under the lowercase key `content-type`, the outgoing request still
carries that content-type entry — the source's `in`-test for the key
`Content-Type` is case-sensitive, so no removal
happens and the headers sent do not omit the Content-Type entry. -/
theorem formdata_content_type_not_always_removed_cex :
    buildRequest lowercaseHeaderCfg okEnv (.formData [("f", "1")])
      = .ok { url := ⟨"http://api.test/upload", []⟩, method := .POST,
              headers := .obj [("content-type", "application/json")],
              body := .form [("f", "1")] }
    ∧ headerGetCI [("content-type", "application/json")] "Content-Type"
        = some "application/json" :=
  ⟨rfl, rfl⟩

/-- C6 amended: a `FormData` payload (with method other than GET) is
passed through verbatim as the body; the `Content-Type` entry is
removed from a freshly derived copy of the headers only when the
configured headers are a plain object containing the exact
case-sensitive key `Content-Type` — in every other case (no such exact
key, a `Headers` instance, an array of pairs) the headers are sent
exactly as configured. -/
theorem formdata_body_verbatim_and_exact_key_removal
    (cfg : ActionConfig) (env : Env) (data : JValue)
    (fd : List (String × String)) (req : FetchRequest)
    (hm : cfg.method ≠ .GET)
    (hrd : computeRequestData cfg data = .ok (.formData fd))
    (hreq : buildRequest cfg env data = .ok req) :
    req.body = .form fd
    ∧ (∀ es, cfg.headers = .obj es →
        headersHasKey es "Content-Type" = true →
        req.headers = .obj (deleteKey es "Content-Type"))
    ∧ (∀ es, cfg.headers = .obj es →
        headersHasKey es "Content-Type" = false →
        req.headers = cfg.headers)
    ∧ (∀ es, cfg.headers = .headersObj es → req.headers = cfg.headers)
    ∧ (∀ es, cfg.headers = .pairs es → req.headers = cfg.headers) := by
  unfold buildRequest at hreq
  rw [hrd] at hreq
  rcases hu : mkUrl (envBaseString env.apiUrl ++ cfg.input) with _ | u
  all_goals rw [hu] at hreq
  · exact absurd hreq (by simp)
  simp [hm, isUndef, isFormDataVal, truthy, typeofObject,
    formDataEntries] at hreq
  refine ⟨?_, ?_, ?_, ?_, ?_⟩
  · rw [← hreq]
  · intro es hh hk
    rw [← hreq]
    simp [applyFormDataHeaderFix, hh, hk]
  · intro es hh hk
    rw [← hreq]
    simp [applyFormDataHeaderFix, hh, hk]
  · intro es hh
    rw [← hreq]
    simp [applyFormDataHeaderFix, hh]
  · intro es hh
    rw [← hreq]
    simp [applyFormDataHeaderFix, hh]

/-- C6 amended witness: default headers (exact key `Content-Type`) with
a `FormData` payload — the entry is removed from the sent copy. -/
theorem formdata_body_verbatim_and_exact_key_removal_witness :
    buildRequest { input := "/upload" } okEnv (.formData [("f", "1")])
      = .ok { url := ⟨"http://api.test/upload", []⟩, method := .POST,
              headers := .obj [], body := .form [("f", "1")] }
    ∧ ({ url := ⟨"http://api.test/upload", []⟩, method := .POST,
         headers := .obj [], body := .form [("f", "1")] } : FetchRequest).body
        = .form [("f", "1")]
    ∧ ({ url := ⟨"http://api.test/upload", []⟩, method := .POST,
         headers := .obj [], body := .form [("f", "1")] } : FetchRequest).headers
        = .obj (deleteKey [("Content-Type", "application/json")]
            "Content-Type") :=
  ⟨rfl,
    (formdata_body_verbatim_and_exact_key_removal
      { input := "/upload" } okEnv (.formData [("f", "1")]) [("f", "1")]
      { url := ⟨"http://api.test/upload", []⟩, method := .POST,
        headers := .obj [], body := .form [("f", "1")] }
      (by decide) rfl rfl).1,
    ((formdata_body_verbatim_and_exact_key_removal
      { input := "/upload" } okEnv (.formData [("f", "1")]) [("f", "1")]
      { url := ⟨"http://api.test/upload", []⟩, method := .POST,
        headers := .obj [], body := .form [("f", "1")] }
      (by decide) rfl rfl).2.1 [("Content-Type", "application/json")]
      rfl rfl)⟩

/-- C7: on every successful response, if a response transform is
supplied the action returns its resolved value applied to the raw
response; otherwise it returns the decoded JSON value when the
response's content-type header indicates JSON, and the raw response
text in every other case — a strict two-way branch. -/
theorem success_response_two_way_parse
    (cfg : ActionConfig) (env : Env) (data : JValue)
    (req : FetchRequest) (resp : HttpResponse)
    (hreq : buildRequest cfg env data = .ok req)
    (hfetch : env.fetch req = .success resp)
    (hstatus : respOk resp = true) :
    (∀ f v, cfg.transformResponse = some f → f resp = .ok v →
        (runAction cfg env data).1 = .ok v)
    ∧ (∀ j, cfg.transformResponse = none → includesJson resp = true →
        resp.jsonResult = .ok j → (runAction cfg env data).1 = .ok j)
    ∧ (cfg.transformResponse = none → includesJson resp = false →
        (runAction cfg env data).1 = .ok (.str resp.textBody)) := by
  refine ⟨?_, ?_, ?_⟩
  · intro f v htr hf
    simp [runAction, runActionRaw, hreq, hfetch, hstatus, parseResponse,
      htr, hf, wrapCatch]
  · intro j htr hj hjson
    simp [runAction, runActionRaw, hreq, hfetch, hstatus, parseResponse,
      htr, hj, hjson, wrapCatch]
  · intro htr hj
    simp [runAction, runActionRaw, hreq, hfetch, hstatus, parseResponse,
      htr, hj, wrapCatch]

/-- A 200 response with a plain-text content type. -/
def textResp : HttpResponse :=
  { status := 200, headers := [("Content-Type", "text/plain")],
    jsonResult := .error "not json", textBody := "hello" }

/-- An environment whose transport always answers with `textResp`. -/
def textEnv : Env :=
  { apiUrl := some "http://api.test", fetch := fun _ => .success textResp }

/-- C7 witness: no transform configured and a non-JSON content type —
the action returns the raw response text. -/
theorem success_response_two_way_parse_witness :
    includesJson textResp = false
    ∧ (runAction { input := "/x" } textEnv .undef).1 = .ok (.str "hello") :=
  ⟨rfl,
    (success_response_two_way_parse { input := "/x" } textEnv .undef
      { url := ⟨"http://api.test/x", []⟩, method := .POST,
        headers := .obj [("Content-Type", "application/json")],
        body := .none }
      textResp rfl rfl rfl).2.2 rfl rfl⟩

/-- A 200 response declaring JSON whose body fails to parse: the
embedded `response.json()` rejects with a `SyntaxError`. -/
def badJsonResp : HttpResponse :=
  { status := 200, headers := [("Content-Type", "application/json")],
    jsonResult := .error "Unexpected token", textBody := "" }

/-- An environment whose transport always answers with `badJsonResp`. -/
def badJsonEnv : Env :=
  { apiUrl := some "http://api.test", fetch := fun _ => .success badJsonResp }

/-- C8 counterexample: the `SyntaxError` thrown inside the `try` block
by the failed `response.json()` is exactly the error surfaced to the
caller — the catch block's `instanceof Error` test re-throws `Error`
instances unchanged (`normalizeThrown` is the identity on them), so the
raw underlying exception type leaks past the boundary undecorated,
refuting that part of the claim. -/
theorem error_instances_rethrown_undecorated_cex :
    (runActionRaw { input := "/x" } badJsonEnv .undef).1
      = .error (.err (.parseError "Unexpected token"))
    ∧ (runAction { input := "/x" } badJsonEnv .undef).1
      = .error (.err (.parseError "Unexpected token"))
    ∧ normalizeThrown (.err (.parseError "Unexpected token"))
      = .parseError "Unexpected token" :=
  ⟨rfl, rfl, rfl⟩

/-- C8 amended: every failure of the pipeline — request-transform
exception, invalid URL, network failure, non-success status, parse
failure — surfaces to the caller as an `Error` instance carrying a
human-readable message, namely the catch block's normalisation of
whatever the `try` block threw; but `Error`-typed exceptions are
re-thrown unchanged (their raw type reaches the caller undecorated),
and only non-`Error` thrown values are wrapped via
`new Error(String(error))`. -/
theorem errors_normalized_at_boundary
    (cfg : ActionConfig) (env : Env) (data : JValue) (t : Thrown)
    (h : (runAction cfg env data).1 = .error t) :
    (∃ e : JsErr, t = .err e)
    ∧ (∀ t0, (runActionRaw cfg env data).1 = .error t0 →
        t = .err (normalizeThrown t0)
        ∧ (∀ e, t0 = .err e → t = .err e)
        ∧ (∀ v, t0 = .raw v → t = .err (.plain (jsToString v)))) := by
  have hw : wrapCatch (runActionRaw cfg env data).1 = .error t := h
  rcases hr : (runActionRaw cfg env data).1 with t0 | v
  · rw [hr] at hw
    simp [wrapCatch] at hw
    subst hw
    refine ⟨⟨normalizeThrown t0, rfl⟩, ?_⟩
    intro t1 ht1
    injection ht1 with h2
    subst h2
    refine ⟨rfl, ?_, ?_⟩
    · intro e he
      subst he
      rfl
    · intro v hv
      subst hv
      rfl
  · rw [hr] at hw
    simp [wrapCatch] at hw

/-- A descriptor whose request transform throws a raw (non-`Error`)
string value. -/
def rawThrowCfg : ActionConfig :=
  { input := "/x", transformRequest := some fun _ => .error (.raw (.str "oops")) }

/-- C8 witness: a raw thrown string is wrapped into an `Error` carrying
`String(error)` as its message. -/
theorem errors_normalized_at_boundary_witness :
    (runAction rawThrowCfg okEnv (.num 1)).1
      = .error (.err (.plain "oops"))
    ∧ (∃ e : JsErr, Thrown.err (.plain "oops") = .err e) :=
  ⟨rfl,
    (errors_normalized_at_boundary rawThrowCfg okEnv (.num 1)
      (.err (.plain "oops")) rfl).1⟩

/-- An environment with no base URL configured at all. -/
def unsetBaseEnv : Env :=
  { apiUrl := none, fetch := fun _ => .networkError "unreachable" }

/-- C9 counterexample: with the base URL unset, the invocation does
fail before issuing any request, but with the URL constructor's
`Invalid URL` `TypeError` re-thrown by the catch block — not with any
`ConfigurationError`, a kind no code path produces. -/
theorem empty_base_url_no_configuration_error_cex :
    runAction { input := "/users" } unsetBaseEnv .undef
      = (.error (.err .invalidUrl), [])
    ∧ JsErr.invalidUrl ≠ JsErr.configurationError :=
  ⟨rfl, by decide⟩

/-- C9 amended: when the base URL is unset or empty and the resulting
combined string is not an absolute URL (no scheme), the invocation
rejects with the normalised `Invalid URL` error — a generic `TypeError`
rather than a dedicated `ConfigurationError` — and no request is
issued (the trace is empty). -/
theorem empty_base_url_invalid_url_rejection
    (cfg : ActionConfig) (env : Env) (data : JValue) (rd : JValue)
    (_hbase : env.apiUrl = none ∨ env.apiUrl = some "")
    (hrd : computeRequestData cfg data = .ok rd)
    (hscheme : hasScheme (envBaseString env.apiUrl ++ cfg.input) = false) :
    runAction cfg env data = (.error (.err .invalidUrl), []) := by
  have hb : buildRequest cfg env data = .error (.err .invalidUrl) := by
    unfold buildRequest
    rw [hrd]
    simp [mkUrl, hscheme]
  simp [runAction, runActionRaw, hb, wrapCatch, normalizeThrown]

/-- C9 amended witness: base URL set to the empty string with a
relative endpoint. -/
theorem empty_base_url_invalid_url_rejection_witness :
    hasScheme (envBaseString (some "") ++ "/users") = false
    ∧ runAction { input := "/users" }
        { apiUrl := some "", fetch := fun _ => .networkError "unreachable" }
        .undef
      = (.error (.err .invalidUrl), []) :=
  ⟨rfl,
    empty_base_url_invalid_url_rejection { input := "/users" }
      { apiUrl := some "", fetch := fun _ => .networkError "unreachable" }
      .undef .undef (Or.inr rfl) rfl rfl⟩

/-- C10: with a `FormData` payload, the caller-supplied headers value is
never mutated — the `Content-Type` removal operates on a freshly spread
copy, the caller's mapping being left exactly as supplied — and the
removal takes effect only when the supplied headers are a plain object
containing the exact case-sensitive key `Content-Type`: a `Headers`
instance, an array of pairs, or an object without that exact key (for
example only a lowercase `content-type`) leaves the sent headers
unchanged. -/
theorem caller_headers_not_mutated_exact_key_removal
    (cfg : ActionConfig) (env : Env) (data : JValue)
    (fd : List (String × String)) (req : FetchRequest)
    (hm : cfg.method ≠ .GET)
    (hrd : computeRequestData cfg data = .ok (.formData fd))
    (hreq : buildRequest cfg env data = .ok req) :
    (applyFormDataHeaderFix cfg.headers).1 = cfg.headers
    ∧ req.headers = (applyFormDataHeaderFix cfg.headers).2
    ∧ (∀ es, cfg.headers = .headersObj es → req.headers = cfg.headers)
    ∧ (∀ es, cfg.headers = .pairs es → req.headers = cfg.headers)
    ∧ (∀ es, cfg.headers = .obj es →
        headersHasKey es "Content-Type" = false →
        req.headers = cfg.headers)
    ∧ (req.headers ≠ cfg.headers →
        ∃ es, cfg.headers = .obj es
          ∧ headersHasKey es "Content-Type" = true) := by
  unfold buildRequest at hreq
  rw [hrd] at hreq
  rcases hu : mkUrl (envBaseString env.apiUrl ++ cfg.input) with _ | u
  all_goals rw [hu] at hreq
  · exact absurd hreq (by simp)
  simp [hm, isUndef, isFormDataVal, truthy, typeofObject,
    formDataEntries] at hreq
  have hfix : (applyFormDataHeaderFix cfg.headers).1 = cfg.headers := by
    rcases hh : cfg.headers with es | es | es
    · by_cases hk : headersHasKey es "Content-Type" <;>
        simp [applyFormDataHeaderFix, hk]
    · simp [applyFormDataHeaderFix]
    · simp [applyFormDataHeaderFix]
  have hsent : req.headers = (applyFormDataHeaderFix cfg.headers).2 := by
    rw [← hreq]
  refine ⟨hfix, hsent, ?_, ?_, ?_, ?_⟩
  · intro es hh
    rw [hsent, hh]
    simp [applyFormDataHeaderFix]
  · intro es hh
    rw [hsent, hh]
    simp [applyFormDataHeaderFix]
  · intro es hh hk
    rw [hsent, hh]
    simp [applyFormDataHeaderFix, hk]
  · intro hne
    rcases hh : cfg.headers with es | es | es
    · by_cases hk : headersHasKey es "Content-Type"
      · exact ⟨es, rfl, hk⟩
      · exfalso
        apply hne
        rw [hsent, hh]
        simp [applyFormDataHeaderFix, hk]
    · exfalso
      apply hne
      rw [hsent, hh]
      simp [applyFormDataHeaderFix]
    · exfalso
      apply hne
      rw [hsent, hh]
      simp [applyFormDataHeaderFix]

/-- C10 witness: a `Headers`-instance-shaped headers value with a
content-type entry — sent unchanged, caller view unchanged. -/
theorem caller_headers_not_mutated_exact_key_removal_witness :
    buildRequest
        { input := "/upload",
          headers := .headersObj [("Content-Type", "application/json")] }
        okEnv (.formData [("f", "1")])
      = .ok { url := ⟨"http://api.test/upload", []⟩, method := .POST,
              headers := .headersObj [("Content-Type", "application/json")],
              body := .form [("f", "1")] }
    ∧ (applyFormDataHeaderFix
        (.headersObj [("Content-Type", "application/json")])).1
      = .headersObj [("Content-Type", "application/json")]
    ∧ ({ url := ⟨"http://api.test/upload", []⟩, method := .POST,
         headers := .headersObj [("Content-Type", "application/json")],
         body := .form [("f", "1")] } : FetchRequest).headers
      = .headersObj [("Content-Type", "application/json")] :=
  ⟨rfl,
    (caller_headers_not_mutated_exact_key_removal
      { input := "/upload",
        headers := .headersObj [("Content-Type", "application/json")] }
      okEnv (.formData [("f", "1")]) [("f", "1")]
      { url := ⟨"http://api.test/upload", []⟩, method := .POST,
        headers := .headersObj [("Content-Type", "application/json")],
        body := .form [("f", "1")] }
      (by decide) rfl rfl).1,
    ((caller_headers_not_mutated_exact_key_removal
      { input := "/upload",
        headers := .headersObj [("Content-Type", "application/json")] }
      okEnv (.formData [("f", "1")]) [("f", "1")]
      { url := ⟨"http://api.test/upload", []⟩, method := .POST,
        headers := .headersObj [("Content-Type", "application/json")],
        body := .form [("f", "1")] }
      (by decide) rfl rfl).2.2.1 [("Content-Type", "application/json")] rfl)⟩

end ActionFactory
